import Mathlib

/-!
Verification development for the P2P-Match WebRTC signaling core
(`useWebRTC` hook in `src/unnamed/part_000`, plus the payload
serialization in `src/src/components/SignalingInterface.tsx`).

The hook's mutable state (React state plus refs) is embedded as the
record `HookState`; the underlying `RTCPeerConnection` transport session
is embedded as `PeerConnection`, with the W3C/JSEP signaling-state rules
for `setRemoteDescription` / `setLocalDescription` / `addIceCandidate`
(the spec treats the transport as a standards-compliant peer-connection
implementation).  The asynchronous operations `createOffer`,
`handleAnswer`, `createAnswer`, `handleOffer` are embedded as run
functions over an explicit schedule of events (`Ev`) delivered at the
operations' suspension points; each run also produces a trace recording
the hook state at the moment each transport call is issued, which is what
the temporal claims quantify over.
-/

/-- The `type` field of `SignalingData` (`'offer' | 'answer'`,
`src/unnamed/part_000` line 22). -/
inductive SdpKind where
  | offer
  | answer
deriving DecidableEq, Repr

/-- An ICE candidate as it is carried in signaling payloads.  The fields are
the ones `RTCIceCandidate.toJSON` keeps (candidate string, sdpMid,
sdpMLineIndex, usernameFragment); the candidate body is opaque to the core. -/
structure Candidate where
  candidate : String
  sdpMid : Option String
  sdpMLineIndex : Option Nat
  usernameFragment : Option String
deriving DecidableEq, Repr

/-- `SignalingData` (`src/unnamed/part_000` lines 21-25): the immutable
payload `{ type, sdp, iceCandidates }` exchanged between the peers. -/
structure SignalingData where
  type : SdpKind
  sdp : String
  iceCandidates : List Candidate
deriving DecidableEq, Repr

/-- `RTCPeerConnectionState`: the transport's connection state, mirrored into
the hook's `connectionState` React state by `onconnectionstatechange`. -/
inductive ConnState where
  | new
  | connecting
  | connected
  | disconnected
  | failed
  | closed
deriving DecidableEq, Repr

/-- The transport's signaling state (W3C `RTCSignalingState`, restricted to
the states this code can reach: no provisional answers are used). -/
inductive SignalingState where
  | stable
  | haveLocalOffer
  | haveRemoteOffer
deriving DecidableEq, Repr

/-- Errors an operation can surface.  `notInitialized` is the hook's own
`'Peer connection not initialized'` throw; `invalidState` is the transport's
`InvalidStateError` (description commit refused in the current signaling
state, or an operation on a closed session); `invalidCandidate` is the
transport's `TypeError` for a candidate with neither `sdpMid` nor
`sdpMLineIndex`. -/
inductive RtcError where
  | notInitialized
  | invalidState
  | invalidCandidate
deriving DecidableEq, Repr

/-- The transport session wrapped by the hook (one `RTCPeerConnection`).
`gen` identifies the handle (creation order); `remoteCandidates` is the list
of candidates committed to the session via `addIceCandidate`, in order. -/
structure PeerConnection where
  gen : Nat
  signaling : SignalingState
  localDesc : Option (SdpKind × String)
  remoteDesc : Option (SdpKind × String)
  remoteCandidates : List Candidate
  closed : Bool
deriving DecidableEq, Repr

/-- A freshly constructed `RTCPeerConnection`: stable, no descriptions, no
committed candidates, open. -/
def freshPC (g : Nat) : PeerConnection :=
  { gen := g, signaling := SignalingState.stable, localDesc := none,
    remoteDesc := none, remoteCandidates := [], closed := false }

/-- Transport `setRemoteDescription` (JSEP rules): an offer is accepted in
`stable` or `have-remote-offer`, an answer only in `have-local-offer`; any
other combination, or a closed session, rejects with `InvalidStateError`. -/
def setRemoteDescription (pc : PeerConnection) (k : SdpKind) (sdp : String) :
    Except RtcError PeerConnection :=
  if pc.closed then Except.error RtcError.invalidState
  else
    match k, pc.signaling with
    | SdpKind.offer, SignalingState.stable =>
        Except.ok { pc with signaling := SignalingState.haveRemoteOffer,
                            remoteDesc := some (SdpKind.offer, sdp) }
    | SdpKind.offer, SignalingState.haveRemoteOffer =>
        Except.ok { pc with remoteDesc := some (SdpKind.offer, sdp) }
    | SdpKind.answer, SignalingState.haveLocalOffer =>
        Except.ok { pc with signaling := SignalingState.stable,
                            remoteDesc := some (SdpKind.answer, sdp) }
    | _, _ => Except.error RtcError.invalidState

/-- Transport `setLocalDescription`: an offer is accepted in `stable` or
`have-local-offer`, an answer only in `have-remote-offer`. -/
def setLocalDescription (pc : PeerConnection) (k : SdpKind) (sdp : String) :
    Except RtcError PeerConnection :=
  if pc.closed then Except.error RtcError.invalidState
  else
    match k, pc.signaling with
    | SdpKind.offer, SignalingState.stable =>
        Except.ok { pc with signaling := SignalingState.haveLocalOffer,
                            localDesc := some (SdpKind.offer, sdp) }
    | SdpKind.offer, SignalingState.haveLocalOffer =>
        Except.ok { pc with localDesc := some (SdpKind.offer, sdp) }
    | SdpKind.answer, SignalingState.haveRemoteOffer =>
        Except.ok { pc with signaling := SignalingState.stable,
                            localDesc := some (SdpKind.answer, sdp) }
    | _, _ => Except.error RtcError.invalidState

/-- Transport `addIceCandidate`: rejects with `TypeError` when a non-empty
candidate names neither `sdpMid` nor `sdpMLineIndex`, with
`InvalidStateError` when no remote description is committed or the session
is closed; otherwise appends the candidate in arrival order. -/
def addIceCandidate (pc : PeerConnection) (c : Candidate) :
    Except RtcError PeerConnection :=
  if pc.closed then Except.error RtcError.invalidState
  else if c.candidate ≠ "" ∧ c.sdpMid = none ∧ c.sdpMLineIndex = none then
    Except.error RtcError.invalidCandidate
  else if pc.remoteDesc = none then Except.error RtcError.invalidState
  else Except.ok { pc with remoteCandidates := pc.remoteCandidates ++ [c] }

/-- Transport `createOffer`: works on any open session, producing an SDP
string (opaque to the core; the model makes it a function of the handle). -/
def transportCreateOffer (pc : PeerConnection) : Except RtcError String :=
  if pc.closed then Except.error RtcError.invalidState
  else Except.ok ("offer-sdp-" ++ toString pc.gen)

/-- Transport `createAnswer`: requires a committed remote offer. -/
def transportCreateAnswer (pc : PeerConnection) : Except RtcError String :=
  if pc.closed then Except.error RtcError.invalidState
  else if pc.signaling = SignalingState.haveRemoteOffer then
    Except.ok ("answer-sdp-" ++ toString pc.gen)
  else Except.error RtcError.invalidState

/-- The hook's mutable state: the React state variables (`isConnected`,
`isConnecting`, `connectionState`, remote stream) and the refs
(`peerConnectionRef`, `iceCandidatesRef`, `isCreatingAnswerRef`,
`isActivelyConnectingRef`) of `useWebRTC` (`src/unnamed/part_000` lines
62-74).  `nextGen` and `openGens` are bookkeeping for handle identity:
`openGens` lists the generations of transport sessions created and not yet
closed, so leak claims can be stated. -/
structure HookState where
  pc : Option PeerConnection
  iceCandidates : List Candidate
  isCreatingAnswer : Bool
  isActivelyConnecting : Bool
  isConnecting : Bool
  isConnected : Bool
  connectionState : ConnState
  remoteStreamPresent : Bool
  nextGen : Nat
  openGens : List Nat
deriving DecidableEq, Repr

/-- Whether a transport state is one of `connected`/`disconnected`/`failed`
(the states that clear the connecting display, line 99). -/
def isTerminalState : ConnState → Bool
  | ConnState.connected => true
  | ConnState.disconnected => true
  | ConnState.failed => true
  | _ => false

/-- An event the transport can deliver to the hook's registered observers:
a connection state change (`onconnectionstatechange`), a locally discovered
ICE candidate (`onicecandidate`), or remote track arrival (`ontrack`). -/
inductive Ev where
  | connState (c : ConnState)
  | iceCand (c : Candidate)
  | track
deriving DecidableEq, Repr

/-- The first two statements of `onconnectionstatechange`
(`src/unnamed/part_000` lines 92-93): record the raw state, derive
`isConnected`. -/
def applyConnState (s : HookState) (c : ConnState) : HookState :=
  { s with connectionState := c, isConnected := c = ConnState.connected }

/-- The hook's event handlers (`src/unnamed/part_000` lines 90-119): the
connection-state handler records the raw state, derives `isConnected`, shows
`isConnecting` only when the actively-connecting flag is set and the state is
`connecting`, and clears both the display and the flag on
connected/disconnected/failed; the candidate handler appends to the
accumulator unconditionally; the track handler publishes the remote stream. -/
def deliverEv (s : HookState) : Ev → HookState
  | Ev.connState c =>
    if s.isActivelyConnecting ∧ c = ConnState.connecting then
      { applyConnState s c with isConnecting := true }
    else if isTerminalState c then
      { applyConnState s c with isConnecting := false,
                                isActivelyConnecting := false }
    else applyConnState s c
  | Ev.iceCand cand => { s with iceCandidates := s.iceCandidates ++ [cand] }
  | Ev.track => { s with remoteStreamPresent := true }

/-- Deliver a batch of events in order. -/
def deliverAll (s : HookState) (evs : List Ev) : HookState :=
  evs.foldl deliverEv s

/-- Close the current transport session if one exists (the
`peerConnectionRef.current.close()` calls): marks the handle closed and
removes its generation from the open-handle ledger. -/
def closeCurrent (s : HookState) : HookState :=
  match s.pc with
  | none => s
  | some pc =>
      { s with pc := some { pc with closed := true },
               openGens := s.openGens.erase pc.gen }

/-- `initializePeerConnection` (`src/unnamed/part_000` lines 77-150): closes
any existing session, creates a fresh one, wires the observers, and resets
the candidate accumulator. -/
def initializePeerConnection (s : HookState) : HookState :=
  let s1 := closeCurrent s
  { s1 with pc := some (freshPC s1.nextGen),
            nextGen := s1.nextGen + 1,
            openGens := s1.openGens ++ [s1.nextGen],
            iceCandidates := [] }

/-- `resetConnection` (`src/unnamed/part_000` lines 387-398): closes the
session, clears the derived outputs and both negotiation-mode flags, then
re-initializes. -/
def resetConnection (s : HookState) : HookState :=
  let s1 := closeCurrent s
  let s2 := { s1 with remoteStreamPresent := false, isConnected := false,
                      isConnecting := false, connectionState := ConnState.new,
                      isActivelyConnecting := false, isCreatingAnswer := false }
  initializePeerConnection s2

/-- The state before the mount effect runs: no session yet. -/
def initialState : HookState :=
  { pc := none, iceCandidates := [], isCreatingAnswer := false,
    isActivelyConnecting := false, isConnecting := false, isConnected := false,
    connectionState := ConnState.new, remoteStreamPresent := false,
    nextGen := 0, openGens := [] }

/-- The state right after the mount effect called
`initializePeerConnection` — every scenario starts here. -/
def mountedState : HookState :=
  initializePeerConnection initialState

/-- Labels for the transport calls an operation issues, recorded in traces. -/
inductive CallLabel where
  | commitRemote
  | addCand
  | transCreateOffer
  | transCreateAnswer
  | commitLocal
deriving DecidableEq, Repr

/-- A trace entry records the hook state at the moment a transport call was
issued (before the call's own suspension point). -/
abbrev Trace := List (CallLabel × HookState)

/-- Result of running an asynchronous operation: the hook state when the
operation's promise settles, plus the returned value or the raised error. -/
inductive OpResult (α : Type) where
  | ok (s : HookState) (v : α)
  | err (s : HookState) (e : RtcError)
deriving DecidableEq, Repr

/-- The hook state when the operation settled. -/
def OpResult.resState {α : Type} : OpResult α → HookState
  | OpResult.ok s _ => s
  | OpResult.err s _ => s

/-- Whether the operation's promise resolved. -/
def OpResult.isOk {α : Type} : OpResult α → Bool
  | OpResult.ok _ _ => true
  | OpResult.err _ _ => false

/-- Whether the operation's promise rejected. -/
def OpResult.isErr {α : Type} : OpResult α → Bool
  | OpResult.ok _ _ => false
  | OpResult.err _ _ => true

/-- The raised error, if any. -/
def OpResult.errOf {α : Type} : OpResult α → Option RtcError
  | OpResult.ok _ _ => none
  | OpResult.err _ e => some e

/-- Pop the batch of events scheduled for the next suspension point; an
exhausted schedule delivers no events. -/
def popBatch : List (List Ev) → List Ev × List (List Ev)
  | [] => ([], [])
  | b :: rest => (b, rest)

/-- The synchronous prologue of `handleAnswer` (`src/unnamed/part_000`
lines 297-299): clear the creating-answer flag, set the actively-connecting
flag, publish `isConnecting := true`. -/
def answerPrologue (s : HookState) : HookState :=
  { s with isCreatingAnswer := false, isActivelyConnecting := true,
           isConnecting := true }

/-- Advance the tracked transport session to its post-commit state (the ref
still points at the same session object). -/
def setPC (s : HookState) (pc : PeerConnection) : HookState :=
  { s with pc := some pc }

/-- The synchronous start of `createOffer` (line 248): clear the candidate
accumulator. -/
def offerStart (s : HookState) : HookState := { s with iceCandidates := [] }

/-- The synchronous start of `createAnswer` (lines 329-330): clear the
accumulator and set the creating-answer flag. -/
def answerStart (s : HookState) : HookState :=
  { s with iceCandidates := [], isCreatingAnswer := true }

/-- The `catch` of `handleAnswer` (line 316): publish
`isConnecting := false`. -/
def clearConnecting (s : HookState) : HookState :=
  { s with isConnecting := false }

/-- Clearing the creating-answer flag (`createAnswer` lines 372 and 376). -/
def clearCreating (s : HookState) : HookState :=
  { s with isCreatingAnswer := false }

/-- Result of the candidate-application loop: final hook state, the error
that interrupted the loop (if any), the extended trace, and the schedule
batches not yet consumed. -/
structure CandLoopRes where
  state : HookState
  error : Option RtcError
  trace : Trace
  sched : List (List Ev)
deriving Repr

/-- The `for (const candidate of ...) await addIceCandidate(candidate)` loops
of `handleAnswer` (lines 309-311) and `createAnswer` (lines 340-342): each
candidate is committed in payload order; each `await` is a suspension point
at which one batch of scheduled events is delivered; the first transport
rejection stops the loop (already-committed candidates stay committed). -/
def applyCandidates (cs : List Candidate) (sched : List (List Ev))
    (s : HookState) (tr : Trace) : CandLoopRes :=
  match cs with
  | [] => { state := s, error := none, trace := tr, sched := sched }
  | c :: rest =>
    let tr1 := tr ++ [(CallLabel.addCand, s)]
    match s.pc with
    | none =>
        { state := s, error := some RtcError.notInitialized, trace := tr1,
          sched := sched }
    | some pc =>
      match addIceCandidate pc c with
      | Except.error e =>
          { state := deliverAll s (popBatch sched).1, error := some e,
            trace := tr1, sched := (popBatch sched).2 }
      | Except.ok pc1 =>
          applyCandidates rest (popBatch sched).2
            (deliverAll (setPC s pc1) (popBatch sched).1) tr1

/-- `handleAnswer` (`src/unnamed/part_000` lines 290-319).  Guard: throws
`notInitialized` when no session exists.  Synchronous prologue (no suspension
point before the first transport call): clears the creating-answer flag, sets
the actively-connecting flag, publishes `isConnecting := true`.  Then commits
the remote description — the description's kind is forced to `answer`, the
payload's own `type` field is never read — and applies the payload's
candidates in order.  The `catch` publishes `isConnecting := false` and
re-raises; it touches neither flag. -/
def handleAnswerRun (p : SignalingData) (sched : List (List Ev))
    (s0 : HookState) : OpResult Unit × Trace :=
  match s0.pc with
  | none => (OpResult.err s0 RtcError.notInitialized, [])
  | some pc =>
    let s1 := answerPrologue s0
    let tr : Trace := [(CallLabel.commitRemote, s1)]
    match setRemoteDescription pc SdpKind.answer p.sdp with
    | Except.error e =>
        (OpResult.err (clearConnecting (deliverAll s1 (popBatch sched).1)) e, tr)
    | Except.ok pc1 =>
        let r := applyCandidates p.iceCandidates (popBatch sched).2
          (deliverAll (setPC s1 pc1) (popBatch sched).1) tr
        match r.error with
        | none => (OpResult.ok r.state (), r.trace)
        | some e => (OpResult.err (clearConnecting r.state) e, r.trace)

/-- `createOffer` (`src/unnamed/part_000` lines 241-287).  Guard, then the
candidate accumulator is cleared synchronously (line 248, before any
suspension point); the transport constructs an offer, it is committed as the
local description, the bounded gathering wait runs (one suspension point in
this model; its bounded-return property is proved separately on
`awaitGatheringSettled`), and the payload snapshots the accumulator.  The
`catch` only re-raises. -/
def createOfferRun (sched : List (List Ev)) (s0 : HookState) :
    OpResult SignalingData × Trace :=
  match s0.pc with
  | none => (OpResult.err s0 RtcError.notInitialized, [])
  | some pc =>
    let s1 := offerStart s0
    let tr : Trace := [(CallLabel.transCreateOffer, s1)]
    match transportCreateOffer pc with
    | Except.error e =>
        (OpResult.err (deliverAll s1 (popBatch sched).1) e, tr)
    | Except.ok offerSdp =>
        let s2 := deliverAll s1 (popBatch sched).1
        let tr1 := tr ++ [(CallLabel.commitLocal, s2)]
        match s2.pc with
        | none => (OpResult.err s2 RtcError.notInitialized, tr1)
        | some pc2 =>
          match setLocalDescription pc2 SdpKind.offer offerSdp with
          | Except.error e =>
              (OpResult.err
                (deliverAll s2 (popBatch (popBatch sched).2).1) e, tr1)
          | Except.ok pc3 =>
              let s3 := deliverAll (setPC s2 pc3) (popBatch (popBatch sched).2).1
              let s4 := deliverAll s3
                (popBatch (popBatch (popBatch sched).2).2).1
              (OpResult.ok s4 { type := SdpKind.offer, sdp := offerSdp,
                                iceCandidates := s4.iceCandidates }, tr1)

/-- `createAnswer` (`src/unnamed/part_000` lines 322-379).  Guard, then the
accumulator is cleared and the creating-answer flag set synchronously (lines
329-330, before any suspension point); the remote description is committed
with its kind forced to `offer` (the payload's `type` field is never read),
the payload's candidates are applied in order, the transport constructs an
answer, it is committed as the local description, the bounded gathering wait
runs, and the payload snapshots the accumulator.  The creating-answer flag is
cleared before returning, on success (line 372) and in the `catch`
(line 376) alike. -/
def createAnswerRun (p : SignalingData) (sched : List (List Ev))
    (s0 : HookState) : OpResult SignalingData × Trace :=
  match s0.pc with
  | none => (OpResult.err s0 RtcError.notInitialized, [])
  | some pc =>
    let s1 := answerStart s0
    let tr : Trace := [(CallLabel.commitRemote, s1)]
    match setRemoteDescription pc SdpKind.offer p.sdp with
    | Except.error e =>
        (OpResult.err (clearCreating (deliverAll s1 (popBatch sched).1)) e, tr)
    | Except.ok pc1 =>
        let r := applyCandidates p.iceCandidates (popBatch sched).2
          (deliverAll (setPC s1 pc1) (popBatch sched).1) tr
        match r.error with
        | some e => (OpResult.err (clearCreating r.state) e, r.trace)
        | none =>
          let tr2 := r.trace ++ [(CallLabel.transCreateAnswer, r.state)]
          match r.state.pc with
          | none =>
              (OpResult.err (clearCreating r.state) RtcError.notInitialized, tr2)
          | some pc3 =>
            match transportCreateAnswer pc3 with
            | Except.error e =>
                (OpResult.err
                  (clearCreating (deliverAll r.state (popBatch r.sched).1))
                  e, tr2)
            | Except.ok ansSdp =>
                let s4 := deliverAll r.state (popBatch r.sched).1
                let tr3 := tr2 ++ [(CallLabel.commitLocal, s4)]
                match s4.pc with
                | none =>
                    (OpResult.err (clearCreating s4)
                      RtcError.notInitialized, tr3)
                | some pc4 =>
                  match setLocalDescription pc4 SdpKind.answer ansSdp with
                  | Except.error e =>
                      (OpResult.err
                        (clearCreating
                          (deliverAll s4 (popBatch (popBatch r.sched).2).1))
                        e, tr3)
                  | Except.ok pc5 =>
                      let s5 := deliverAll (setPC s4 pc5)
                        (popBatch (popBatch r.sched).2).1
                      let s6 := deliverAll s5
                        (popBatch (popBatch (popBatch r.sched).2).2).1
                      (OpResult.ok (clearCreating s6)
                        { type := SdpKind.answer, sdp := ansSdp,
                          iceCandidates := s6.iceCandidates }, tr3)

/-- `handleOffer` (`src/unnamed/part_000` lines 381-384): awaits
`createAnswer` on the same payload and discards the produced answer
payload; errors propagate unchanged (there is no catch of its own). -/
def handleOfferRun (p : SignalingData) (sched : List (List Ev))
    (s0 : HookState) : OpResult Unit × Trace :=
  match createAnswerRun p sched s0 with
  | (OpResult.ok s _, tr) => (OpResult.ok s (), tr)
  | (OpResult.err s e, tr) => (OpResult.err s e, tr)

/-- The ICE-gathering wait loop of `createOffer` / `createAnswer`
(`src/unnamed/part_000` lines 257-273 and 347-363): `checkIceGathering`
polls the transport's gathering state every 100 ms starting immediately,
resolving at the first poll that sees `complete`; an independent timeout
resolves the promise at `T` ms regardless.  The model returns the
resolution time as a function of which poll instants see gathering
complete. -/
def gatherLoop (complete : Nat → Bool) (T t : Nat) : Nat :=
  if t < T then
    if complete t then t
    else gatherLoop complete T (t + 100)
  else T
termination_by T - t
decreasing_by omega

/-- The bounded gathering wait with the code's 2000 ms timeout. -/
def awaitGatheringSettled (complete : Nat → Bool) : Nat :=
  gatherLoop complete 2000 0

/-- A Connection Manager lifecycle call: `initializePeerConnection` or
`resetConnection` (`resetConnection` itself ends by calling
`initializePeerConnection`). -/
inductive MgrOp where
  | initCall
  | resetCall
deriving DecidableEq, Repr

/-- Run one lifecycle call. -/
def runMgrOp (s : HookState) : MgrOp → HookState
  | MgrOp.initCall => initializePeerConnection s
  | MgrOp.resetCall => resetConnection s

/-- Run a sequence of lifecycle calls. -/
def runMgrOps (s : HookState) (ops : List MgrOp) : HookState :=
  ops.foldl runMgrOp s

/-- Handle-ledger invariant: the open-handle ledger holds exactly the
current session's generation when it is open, and nothing otherwise. -/
def handleInv (s : HookState) : Prop :=
  match s.pc with
  | none => s.openGens = []
  | some pc => if pc.closed then s.openGens = [] else s.openGens = [pc.gen]

/-- JSON documents, as produced by the platform `JSON.stringify` /
`JSON.parse` pair used in `SignalingInterface.tsx` (`handleCopyOffer`
line 39, `handleSubmitOffer` line 55): the text layer is the platform
JSON codec, modeled at the document level. -/
inductive Json where
  | null
  | str (s : String)
  | num (n : Nat)
  | arr (elems : List Json)
  | obj (fields : List (String × Json))

/-- First field with the given key in a JSON object's field list. -/
def getField (fields : List (String × Json)) (k : String) : Option Json :=
  match fields with
  | [] => none
  | (k1, v) :: rest => if k1 = k then some v else getField rest k

/-- A nullable string field, as `JSON.stringify` renders it. -/
def encodeOptStr : Option String → Json
  | none => Json.null
  | some s => Json.str s

/-- Parse a nullable string field. -/
def decodeOptStr : Json → Option (Option String)
  | Json.null => some none
  | Json.str s => some (some s)
  | _ => none

/-- A nullable numeric field, as `JSON.stringify` renders it. -/
def encodeOptNat : Option Nat → Json
  | none => Json.null
  | some n => Json.num n

/-- Parse a nullable numeric field. -/
def decodeOptNat : Json → Option (Option Nat)
  | Json.null => some none
  | Json.num n => some (some n)
  | _ => none

/-- An `RTCIceCandidate` as `JSON.stringify` serializes it (its `toJSON`
fields). -/
def encodeCandidate (c : Candidate) : Json :=
  Json.obj [("candidate", Json.str c.candidate),
            ("sdpMid", encodeOptStr c.sdpMid),
            ("sdpMLineIndex", encodeOptNat c.sdpMLineIndex),
            ("usernameFragment", encodeOptStr c.usernameFragment)]

/-- Parse one candidate object. -/
def decodeCandidate : Json → Option Candidate
  | Json.obj fields =>
    match getField fields "candidate", getField fields "sdpMid",
          getField fields "sdpMLineIndex", getField fields "usernameFragment" with
    | some (Json.str c), some jm, some jl, some ju =>
      match decodeOptStr jm, decodeOptNat jl, decodeOptStr ju with
      | some m, some l, some u =>
          some { candidate := c, sdpMid := m, sdpMLineIndex := l,
                 usernameFragment := u }
      | _, _, _ => none
    | _, _, _, _ => none
  | _ => none

/-- Parse a candidate array element-wise, in order. -/
def decodeCandidates : List Json → Option (List Candidate)
  | [] => some []
  | j :: rest =>
    match decodeCandidate j, decodeCandidates rest with
    | some c, some cs => some (c :: cs)
    | _, _ => none

/-- The `type` field's string. -/
def kindToStr : SdpKind → String
  | SdpKind.offer => "offer"
  | SdpKind.answer => "answer"

/-- Parse the `type` field. -/
def strToKind (s : String) : Option SdpKind :=
  if s = "offer" then some SdpKind.offer
  else if s = "answer" then some SdpKind.answer
  else none

/-- A `SignalingData` value as `JSON.stringify(offerData, null, 2)`
serializes it (`SignalingInterface.tsx` lines 37-43). -/
def encodeSignaling (p : SignalingData) : Json :=
  Json.obj [("type", Json.str (kindToStr p.type)),
            ("sdp", Json.str p.sdp),
            ("iceCandidates", Json.arr (p.iceCandidates.map encodeCandidate))]

/-- Parse a signaling payload back from its JSON document, as
`JSON.parse` recovers the structure (`SignalingInterface.tsx` lines
53-60). -/
def decodeSignaling : Json → Option SignalingData
  | Json.obj fields =>
    match getField fields "type", getField fields "sdp",
          getField fields "iceCandidates" with
    | some (Json.str t), some (Json.str sdp), some (Json.arr cands) =>
      match strToKind t, decodeCandidates cands with
      | some k, some cs =>
          some { type := k, sdp := sdp, iceCandidates := cs }
      | _, _ => none
    | _, _, _ => none
  | _ => none

/-- The candidates an event contributes to the accumulator. -/
def evCands : Ev → List Candidate
  | Ev.iceCand c => [c]
  | _ => []

/-- The candidates a batch of events contributes, in delivery order. -/
def batchCands (b : List Ev) : List Candidate :=
  (b.map evCands).flatten

/-- The candidates a schedule contributes, in delivery order. -/
def schedCands (sched : List (List Ev)) : List Candidate :=
  (sched.map batchCands).flatten

/-- Whether an event is a connected/disconnected/failed state report. -/
def isTerminalEv : Ev → Bool
  | Ev.connState c => isTerminalState c
  | _ => false

/-- A schedule that delivers no connected/disconnected/failed state report
(the connection attempt has not yet concluded). -/
def noTerminalSched (sched : List (List Ev)) : Prop :=
  ∀ b ∈ sched, ∀ e ∈ b, isTerminalEv e = false

/-- A quiet-status state: neither the connecting display nor the
actively-connecting flag is set. -/
def calm (s : HookState) : Prop :=
    s.isConnecting = false ∧ s.isActivelyConnecting = false

/-- Example answer payload used by concrete witnesses. -/
def answerPayload : SignalingData :=
  { type := SdpKind.answer, sdp := "remote-answer-sdp", iceCandidates := [] }

/-- Example well-formed candidate used by concrete witnesses. -/
def exCandidate : Candidate :=
  { candidate := "candidate:1 1 udp 2122260223 192.0.2.1 54321 typ host",
    sdpMid := some "0", sdpMLineIndex := some 0, usernameFragment := none }

/-- The initiator's state after a completed negotiation round: offer
created, answer applied, session `Negotiated`. -/
def negotiatedState : HookState :=
  (handleAnswerRun answerPayload []
    ((createOfferRun [] mountedState).1.resState)).1.resState

/-- Example offer payload used by concrete witnesses. -/
def offerPayload : SignalingData :=
  { type := SdpKind.offer, sdp := "remote-offer-sdp", iceCandidates := [] }

/-- The concrete state in which an offer round on the mounted session ends
when one candidate is discovered during the round. -/
def offerRoundState : HookState :=
  { pc := some { gen := 0, signaling := SignalingState.haveLocalOffer,
                 localDesc := some (SdpKind.offer, "offer-sdp-0"),
                 remoteDesc := none, remoteCandidates := [], closed := false },
    iceCandidates := [exCandidate], isCreatingAnswer := false,
    isActivelyConnecting := false, isConnecting := false, isConnected := false,
    connectionState := ConnState.new, remoteStreamPresent := false,
    nextGen := 1, openGens := [0] }

/-- The payload that offer round produces. -/
def offerRoundPayload : SignalingData :=
  { type := SdpKind.offer, sdp := "offer-sdp-0",
    iceCandidates := [exCandidate] }

@[simp] theorem answerPrologue_pc (s : HookState) :
    (answerPrologue s).pc = s.pc := rfl

@[simp] theorem answerPrologue_isConnecting (s : HookState) :
    (answerPrologue s).isConnecting = true := rfl

@[simp] theorem answerPrologue_isActivelyConnecting (s : HookState) :
    (answerPrologue s).isActivelyConnecting = true := rfl

@[simp] theorem answerPrologue_iceCandidates (s : HookState) :
    (answerPrologue s).iceCandidates = s.iceCandidates := rfl

@[simp] theorem setPC_pc (s : HookState) (pc : PeerConnection) :
    (setPC s pc).pc = some pc := rfl

@[simp] theorem setPC_isConnecting (s : HookState) (pc : PeerConnection) :
    (setPC s pc).isConnecting = s.isConnecting := rfl

@[simp] theorem setPC_isActivelyConnecting (s : HookState) (pc : PeerConnection) :
    (setPC s pc).isActivelyConnecting = s.isActivelyConnecting := rfl

@[simp] theorem setPC_iceCandidates (s : HookState) (pc : PeerConnection) :
    (setPC s pc).iceCandidates = s.iceCandidates := rfl

@[simp] theorem offerStart_pc (s : HookState) : (offerStart s).pc = s.pc := rfl

@[simp] theorem offerStart_isConnecting (s : HookState) :
    (offerStart s).isConnecting = s.isConnecting := rfl

@[simp] theorem offerStart_isActivelyConnecting (s : HookState) :
    (offerStart s).isActivelyConnecting = s.isActivelyConnecting := rfl

@[simp] theorem offerStart_iceCandidates (s : HookState) :
    (offerStart s).iceCandidates = [] := rfl

@[simp] theorem answerStart_pc (s : HookState) : (answerStart s).pc = s.pc := rfl

@[simp] theorem answerStart_isConnecting (s : HookState) :
    (answerStart s).isConnecting = s.isConnecting := rfl

@[simp] theorem answerStart_isActivelyConnecting (s : HookState) :
    (answerStart s).isActivelyConnecting = s.isActivelyConnecting := rfl

@[simp] theorem answerStart_iceCandidates (s : HookState) :
    (answerStart s).iceCandidates = [] := rfl

@[simp] theorem clearConnecting_pc (s : HookState) :
    (clearConnecting s).pc = s.pc := rfl

@[simp] theorem clearConnecting_isConnecting (s : HookState) :
    (clearConnecting s).isConnecting = false := rfl

@[simp] theorem clearConnecting_isActivelyConnecting (s : HookState) :
    (clearConnecting s).isActivelyConnecting = s.isActivelyConnecting := rfl

@[simp] theorem clearConnecting_iceCandidates (s : HookState) :
    (clearConnecting s).iceCandidates = s.iceCandidates := rfl

@[simp] theorem clearCreating_pc (s : HookState) :
    (clearCreating s).pc = s.pc := rfl

@[simp] theorem clearCreating_isConnecting (s : HookState) :
    (clearCreating s).isConnecting = s.isConnecting := rfl

@[simp] theorem clearCreating_isActivelyConnecting (s : HookState) :
    (clearCreating s).isActivelyConnecting = s.isActivelyConnecting := rfl

@[simp] theorem clearCreating_iceCandidates (s : HookState) :
    (clearCreating s).iceCandidates = s.iceCandidates := rfl

theorem deliverEv_pc (s : HookState) (e : Ev) : (deliverEv s e).pc = s.pc := by
  cases e with
  | connState c =>
      simp only [deliverEv]
      split
      · rfl
      · split <;> rfl
  | iceCand c => rfl
  | track => rfl

theorem deliverAll_pc (evs : List Ev) (s : HookState) :
    (deliverAll s evs).pc = s.pc := by
  induction evs generalizing s with
  | nil => rfl
  | cons e rest ih =>
      show (deliverAll (deliverEv s e) rest).pc = s.pc
      rw [ih, deliverEv_pc]

theorem deliverEv_cands (s : HookState) (e : Ev) :
    (deliverEv s e).iceCandidates = s.iceCandidates ++ evCands e := by
  cases e with
  | connState c =>
      simp only [deliverEv, evCands]
      split
      · simp [applyConnState]
      · split <;> simp [applyConnState]
  | iceCand c => rfl
  | track => simp [deliverEv, evCands]

theorem deliverAll_cands (evs : List Ev) (s : HookState) :
    (deliverAll s evs).iceCandidates = s.iceCandidates ++ batchCands evs := by
  induction evs generalizing s with
  | nil => simp [deliverAll, batchCands]
  | cons e rest ih =>
      show (deliverAll (deliverEv s e) rest).iceCandidates = _
      rw [ih, deliverEv_cands]
      simp [batchCands]

theorem deliverEv_calm (s : HookState) (e : Ev) (h : calm s) :
    calm (deliverEv s e) := by
  obtain ⟨h1, h2⟩ := h
  cases e with
  | connState c =>
      simp only [deliverEv]
      split
      · next hcond => exact absurd hcond.1 (by simp [h2])
      · split
        · exact ⟨rfl, rfl⟩
        · exact ⟨h1, h2⟩
  | iceCand c => exact ⟨h1, h2⟩
  | track => exact ⟨h1, h2⟩

theorem deliverAll_calm (evs : List Ev) (s : HookState) (h : calm s) :
    calm (deliverAll s evs) := by
  induction evs generalizing s with
  | nil => exact h
  | cons e rest ih => exact ih (deliverEv s e) (deliverEv_calm s e h)

theorem calm_offerStart (s : HookState) (h : calm s) : calm (offerStart s) := h

theorem calm_answerStart (s : HookState) (h : calm s) : calm (answerStart s) := h

theorem calm_setPC (s : HookState) (pc : PeerConnection) (h : calm s) :
    calm (setPC s pc) := h

theorem deliverEv_active (s : HookState) (e : Ev)
    (ha : s.isActivelyConnecting = true) (he : isTerminalEv e = false) :
    (deliverEv s e).isActivelyConnecting = true := by
  cases e with
  | connState c =>
      simp only [deliverEv]
      simp only [isTerminalEv] at he
      split
      · exact ha
      · split
        · next hterm => rw [he] at hterm; exact absurd hterm (by simp)
        · exact ha
  | iceCand c => exact ha
  | track => exact ha

theorem deliverAll_active (evs : List Ev) (s : HookState)
    (ha : s.isActivelyConnecting = true)
    (he : ∀ e ∈ evs, isTerminalEv e = false) :
    (deliverAll s evs).isActivelyConnecting = true := by
  induction evs generalizing s with
  | nil => exact ha
  | cons e rest ih =>
      exact ih (deliverEv s e)
        (deliverEv_active s e ha (he e (by simp)))
        (fun x hx => he x (by simp [hx]))

theorem noTerminalSched_pop (sched : List (List Ev)) (h : noTerminalSched sched) :
    (∀ e ∈ (popBatch sched).1, isTerminalEv e = false) ∧
    noTerminalSched (popBatch sched).2 := by
  cases sched with
  | nil =>
      refine ⟨?_, ?_⟩
      · intro e he; cases he
      · intro b hb; cases hb
  | cons b rest =>
      refine ⟨h b (by simp [popBatch]), ?_⟩
      intro b1 hb1
      exact h b1 (by simp [popBatch] at hb1 ⊢; right; exact hb1)

theorem gatherLoop_le (c : Nat → Bool) (T t : Nat) :
    gatherLoop c T t ≤ T := by
  rw [gatherLoop]
  split
  · split
    · omega
    · exact gatherLoop_le c T (t + 100)
  · omega
termination_by T - t
decreasing_by omega

theorem gatherLoop_result (c : Nat → Bool) (T t : Nat) :
    gatherLoop c T t = T ∨ c (gatherLoop c T t) = true := by
  rw [gatherLoop]
  split
  · split
    · next hc => right; exact hc
    · exact gatherLoop_result c T (t + 100)
  · left; rfl
termination_by T - t
decreasing_by omega

theorem gatherLoop_early (c : Nat → Bool) (T t u : Nat) (h1 : t ≤ u)
    (h2 : (u - t) % 100 = 0) (h3 : u < T) (h4 : c u = true) :
    gatherLoop c T t ≤ u := by
  rw [gatherLoop]
  split
  · split
    · omega
    · next hf =>
        have hne : t ≠ u := by
          intro e
          rw [e, h4] at hf
          exact hf rfl
        exact gatherLoop_early c T (t + 100) u (by omega) (by omega) h3 h4
  · omega
termination_by T - t
decreasing_by omega

theorem decodeCandidate_encodeCandidate (c : Candidate) :
    decodeCandidate (encodeCandidate c) = some c := by
  cases c with
  | mk cand m l u =>
      cases m <;> cases l <;> cases u <;>
        simp [encodeCandidate, decodeCandidate, getField, encodeOptStr,
              encodeOptNat, decodeOptStr, decodeOptNat]

theorem decodeCandidates_map (cs : List Candidate) :
    decodeCandidates (cs.map encodeCandidate) = some cs := by
  induction cs with
  | nil => rfl
  | cons c rest ih =>
      simp [decodeCandidates, decodeCandidate_encodeCandidate, ih]

theorem closeCurrent_openGens (s : HookState) (h : handleInv s) :
    (closeCurrent s).openGens = [] := by
  unfold handleInv at h
  cases hpc : s.pc with
  | none =>
      rw [hpc] at h
      simp only at h
      simp [closeCurrent, hpc, h]
  | some pc =>
      rw [hpc] at h
      simp only at h
      cases hc : pc.closed with
      | true =>
          rw [hc] at h
          simp at h
          simp [closeCurrent, hpc, h]
      | false =>
          rw [hc] at h
          simp at h
          simp [closeCurrent, hpc, h, List.erase_cons_head]

theorem closeCurrent_nextGen (s : HookState) :
    (closeCurrent s).nextGen = s.nextGen := by
  unfold closeCurrent
  cases s.pc <;> rfl

theorem initializePeerConnection_spec (s : HookState) (h : handleInv s) :
    (initializePeerConnection s).pc = some (freshPC s.nextGen) ∧
    (initializePeerConnection s).openGens = [s.nextGen] ∧
    (initializePeerConnection s).iceCandidates = [] ∧
    (initializePeerConnection s).nextGen = s.nextGen + 1 := by
  unfold initializePeerConnection
  simp [closeCurrent_openGens s h, closeCurrent_nextGen s]

theorem initializePeerConnection_handleInv (s : HookState) (h : handleInv s) :
    handleInv (initializePeerConnection s) := by
  obtain ⟨h1, h2, _, _⟩ := initializePeerConnection_spec s h
  unfold handleInv
  rw [h1]
  simp [freshPC, h2]

theorem resetConnection_spec (s : HookState) (h : handleInv s) :
    (resetConnection s).pc = some (freshPC s.nextGen) ∧
    (resetConnection s).openGens = [s.nextGen] ∧
    (resetConnection s).iceCandidates = [] ∧
    (resetConnection s).nextGen = s.nextGen + 1 := by
  unfold handleInv at h
  cases hpc : s.pc with
  | none =>
      rw [hpc] at h
      simp only at h
      simp [resetConnection, initializePeerConnection, closeCurrent, hpc, h]
  | some pc =>
      rw [hpc] at h
      simp only at h
      cases hc : pc.closed with
      | true =>
          rw [hc] at h
          simp at h
          simp [resetConnection, initializePeerConnection, closeCurrent, hpc, h]
      | false =>
          rw [hc] at h
          simp at h
          simp [resetConnection, initializePeerConnection, closeCurrent, hpc, h,
                List.erase_cons_head]

theorem resetConnection_handleInv (s : HookState) (h : handleInv s) :
    handleInv (resetConnection s) := by
  obtain ⟨h1, h2, _, _⟩ := resetConnection_spec s h
  unfold handleInv
  rw [h1]
  simp [freshPC, h2]

theorem handleInv_initialState : handleInv initialState := by
  unfold handleInv initialState
  rfl

theorem handleInv_mountedState : handleInv mountedState :=
  initializePeerConnection_handleInv initialState handleInv_initialState

theorem runMgrOp_spec (s : HookState) (o : MgrOp) (h : handleInv s) :
    handleInv (runMgrOp s o) ∧
    ∃ g, (runMgrOp s o).pc = some (freshPC g) ∧
         (runMgrOp s o).openGens = [g] ∧
         (runMgrOp s o).iceCandidates = [] := by
  cases o with
  | initCall =>
      obtain ⟨h1, h2, h3, _⟩ := initializePeerConnection_spec s h
      exact ⟨initializePeerConnection_handleInv s h, s.nextGen, h1, h2, h3⟩
  | resetCall =>
      obtain ⟨h1, h2, h3, _⟩ := resetConnection_spec s h
      exact ⟨resetConnection_handleInv s h, s.nextGen, h1, h2, h3⟩

theorem runMgrOps_handleInv (ops : List MgrOp) (s : HookState) (h : handleInv s) :
    handleInv (runMgrOps s ops) := by
  induction ops generalizing s with
  | nil => exact h
  | cons o rest ih =>
      exact ih (runMgrOp s o) (runMgrOp_spec s o h).1

theorem initializePeerConnection_pc (s : HookState) :
    (initializePeerConnection s).pc = some (freshPC s.nextGen) := by
  unfold initializePeerConnection
  simp [closeCurrent_nextGen]

theorem resetConnection_pc (s : HookState) :
    (resetConnection s).pc = some (freshPC s.nextGen) := by
  unfold resetConnection
  rw [initializePeerConnection_pc]
  simp [closeCurrent_nextGen]

theorem handleAnswerRun_stable (s : HookState) (pc : PeerConnection)
    (hpc : s.pc = some pc) (hcl : pc.closed = false)
    (hsig : pc.signaling = SignalingState.stable)
    (p : SignalingData) (sched : List (List Ev)) :
    (handleAnswerRun p sched s).1.isErr = true ∧
    (handleAnswerRun p sched s).1.resState.pc = some pc := by
  unfold handleAnswerRun
  simp only [hpc]
  simp only [setRemoteDescription, hcl, hsig]
  simp [OpResult.isErr, OpResult.resState, deliverAll_pc, hpc]

/-- C1: after the initiator's `createOffer()` succeeds and `reset()` tears the
session down and re-initializes, a subsequent `handleAnswer(answer)` is
rejected (the fresh session is in `stable` signaling state, so the transport
refuses to commit an answer) and the answer is never applied to the fresh
session: its remote description stays absent and no candidate of the payload
is committed to it, for every event schedule and every answer payload. -/
theorem C1_resetInvalidatesInFlightAnswer (sched1 sched2 : List (List Ev))
    (ans : SignalingData)
    (_hok : (createOfferRun sched1 mountedState).1.isOk = true) :
    ((handleAnswerRun ans sched2
        (resetConnection ((createOfferRun sched1 mountedState).1.resState))).1.isErr
      = true) ∧
    ∃ pc1, (handleAnswerRun ans sched2
        (resetConnection
          ((createOfferRun sched1 mountedState).1.resState))).1.resState.pc
        = some pc1 ∧ pc1.remoteDesc = none ∧ pc1.remoteCandidates = [] := by
  have hpc := resetConnection_pc ((createOfferRun sched1 mountedState).1.resState)
  have h := handleAnswerRun_stable
    (resetConnection ((createOfferRun sched1 mountedState).1.resState))
    (freshPC ((createOfferRun sched1 mountedState).1.resState).nextGen)
    hpc rfl rfl ans sched2
  exact ⟨h.1, _, h.2, rfl, rfl⟩

/-- Witness for C1 at concrete inputs: empty schedules and the example
answer payload. -/
theorem C1_resetInvalidatesInFlightAnswer_witness :
    ((createOfferRun [] mountedState).1.isOk = true) ∧
    ((handleAnswerRun answerPayload []
        (resetConnection ((createOfferRun [] mountedState).1.resState))).1.isErr
      = true) :=
  ⟨by decide, (C1_resetInvalidatesInFlightAnswer [] [] answerPayload (by decide)).1⟩

/-- C2 counterexample: `createAnswer` called on a payload of kind `answer`
does not fail with `InvalidPayload` — the call succeeds, because the code
never reads the payload's `type` field (it coerces the description to kind
`offer`, `src/unnamed/part_000` lines 332-335). -/
theorem C2_counterexample :
    (createAnswerRun answerPayload [] mountedState).1.isOk = true := by decide

/-- C2 (amended): neither `handleAnswer` nor `createAnswer` inspects the
payload's kind field — each behaves identically on a payload and on the same
payload with its kind replaced by anything else (`handleAnswer` coerces the
description to kind `answer`, `createAnswer` to kind `offer`), so a
wrong-kind payload is never rejected with `InvalidPayload`. -/
theorem C2_kindFieldIgnored (p : SignalingData) (k : SdpKind)
    (sched : List (List Ev)) (s : HookState) :
    createAnswerRun { p with type := k } sched s = createAnswerRun p sched s ∧
    handleAnswerRun { p with type := k } sched s = handleAnswerRun p sched s := by
  cases p
  exact ⟨rfl, rfl⟩

/-- C7: the bounded gathering wait returns within the 2000 ms timeout for
every gathering behavior; it resolves either by timeout or at an instant
where gathering is complete (never failing); and if the transport reports
gathering complete at a poll instant before the timeout, it returns by that
instant. -/
theorem C7_boundedGatheringWait (complete : Nat → Bool) :
    awaitGatheringSettled complete ≤ 2000 ∧
    (awaitGatheringSettled complete = 2000 ∨
      complete (awaitGatheringSettled complete) = true) ∧
    (∀ t, t % 100 = 0 → t < 2000 → complete t = true →
      awaitGatheringSettled complete ≤ t) := by
  refine ⟨gatherLoop_le complete 2000 0, gatherLoop_result complete 2000 0, ?_⟩
  intro t h1 h2 h3
  exact gatherLoop_early complete 2000 0 t (Nat.zero_le t) (by omega) h2 h3

/-- Witness for C7: a transport that never completes still returns by the
timeout; one that completes at 300 ms is returned from by 300 ms. -/
theorem C7_boundedGatheringWait_witness :
    awaitGatheringSettled (fun _ => false) ≤ 2000 ∧
    awaitGatheringSettled (fun t => t == 300) ≤ 300 :=
  ⟨(C7_boundedGatheringWait (fun _ => false)).1,
   (C7_boundedGatheringWait (fun t => t == 300)).2.2 300 (by decide) (by decide)
     (by decide)⟩

/-- C8: after any nonempty sequence of `initialize()`/`reset()` calls there
is exactly one open transport handle (the open-handle ledger is the
singleton of the current session's generation, so nothing leaked), the
current session is fresh, and the candidate accumulator is empty. -/
theorem C8_atMostOneHandle (ops : List MgrOp) (hne : ops ≠ []) :
    ∃ g, (runMgrOps mountedState ops).pc = some (freshPC g) ∧
         (runMgrOps mountedState ops).openGens = [g] ∧
         (runMgrOps mountedState ops).iceCandidates = [] := by
  rcases List.eq_nil_or_concat ops with rfl | ⟨l, o, rfl⟩
  · exact absurd rfl hne
  · have hInv : handleInv (runMgrOps mountedState l) :=
      runMgrOps_handleInv l mountedState handleInv_mountedState
    have hstep := runMgrOp_spec (runMgrOps mountedState l) o hInv
    have hrw : runMgrOps mountedState (l.concat o)
        = runMgrOp (runMgrOps mountedState l) o := by
      simp [runMgrOps, List.concat_eq_append, List.foldl_append]
    rw [hrw]
    exact hstep.2

/-- Witness for C8 at a concrete three-call sequence. -/
theorem C8_atMostOneHandle_witness :
    ([MgrOp.initCall, MgrOp.resetCall, MgrOp.initCall] ≠ ([] : List MgrOp)) ∧
    ∃ g, (runMgrOps mountedState
            [MgrOp.initCall, MgrOp.resetCall, MgrOp.initCall]).pc
          = some (freshPC g) ∧
         (runMgrOps mountedState
            [MgrOp.initCall, MgrOp.resetCall, MgrOp.initCall]).openGens = [g] ∧
         (runMgrOps mountedState
            [MgrOp.initCall, MgrOp.resetCall, MgrOp.initCall]).iceCandidates
          = [] :=
  ⟨by decide, C8_atMostOneHandle _ (by decide)⟩

/-- C9: serializing a `SignalingData` to its JSON document and parsing it
back yields a structurally equal payload — same kind, same session
description string, same candidate sequence in the same order. -/
theorem C9_serializationRoundTrip (p : SignalingData) :
    decodeSignaling (encodeSignaling p) = some p := by
  cases p with
  | mk k sdp cands =>
      cases k <;>
        simp [encodeSignaling, decodeSignaling, getField, kindToStr, strToKind,
              decodeCandidates_map]

/-- C10: `handleOffer(p)` performs exactly the same state changes, issues the
same transport calls, and fails under exactly the same conditions as
`createAnswer(p)` — it merely discards the produced answer payload (its
result type carries no payload). -/
theorem C10_handleOfferEquiv (p : SignalingData) (sched : List (List Ev))
    (s : HookState) :
    (handleOfferRun p sched s).1.resState = (createAnswerRun p sched s).1.resState ∧
    (handleOfferRun p sched s).1.errOf = (createAnswerRun p sched s).1.errOf ∧
    (handleOfferRun p sched s).2 = (createAnswerRun p sched s).2 := by
  rcases hr : createAnswerRun p sched s with ⟨r, tr⟩
  cases r <;> simp [handleOfferRun, hr, OpResult.resState, OpResult.errOf]

theorem addIceCandidate_ok (pc : PeerConnection) (c : Candidate)
    (pc1 : PeerConnection) (h : addIceCandidate pc c = Except.ok pc1) :
    pc1 = { pc with remoteCandidates := pc.remoteCandidates ++ [c] } := by
  unfold addIceCandidate at h
  split at h
  · cases h
  · split at h
    · cases h
    · split at h
      · cases h
      · injection h with h1
        exact h1.symm

theorem setRemoteDescription_ok (pc : PeerConnection) (k : SdpKind)
    (sdp : String) (pc1 : PeerConnection)
    (h : setRemoteDescription pc k sdp = Except.ok pc1) :
    pc1.remoteCandidates = pc.remoteCandidates ∧ pc1.closed = pc.closed ∧
    pc1.gen = pc.gen := by
  unfold setRemoteDescription at h
  split at h
  · cases h
  · split at h <;>
      first
      | (injection h with h1; subst h1; simp)
      | cases h

theorem applyCandidates_labels (cs : List Candidate) (sched : List (List Ev))
    (s : HookState) (tr : Trace) (l : CallLabel) (st : HookState) :
    (l, st) ∈ (applyCandidates cs sched s tr).trace →
    (l, st) ∈ tr ∨ l = CallLabel.addCand := by
  induction cs generalizing sched s tr with
  | nil => intro h; exact Or.inl h
  | cons c rest ih =>
      intro h
      simp only [applyCandidates] at h
      cases hpc : s.pc with
      | none =>
          rw [hpc] at h
          simp only [List.mem_append, List.mem_singleton] at h
          rcases h with h | h
          · exact Or.inl h
          · right
            injection h with h1 _
      | some pc =>
          rw [hpc] at h
          simp only at h
          cases hadd : addIceCandidate pc c with
          | error e =>
              rw [hadd] at h
              simp only [List.mem_append, List.mem_singleton] at h
              rcases h with h | h
              · exact Or.inl h
              · right
                injection h with h1 _
          | ok pc1 =>
              rw [hadd] at h
              simp only at h
              rcases ih _ _ _ h with h1 | h1
              · simp only [List.mem_append, List.mem_singleton] at h1
                rcases h1 with h1 | h1
                · exact Or.inl h1
                · right
                  injection h1 with h2 _
              · exact Or.inr h1

theorem applyCandidates_calm (cs : List Candidate) (sched : List (List Ev))
    (s : HookState) (tr : Trace) (hc : calm s) :
    calm (applyCandidates cs sched s tr).state ∧
    (∀ l st, (l, st) ∈ (applyCandidates cs sched s tr).trace →
      (l, st) ∈ tr ∨ calm st) := by
  induction cs generalizing sched s tr with
  | nil => exact ⟨hc, fun l st h => Or.inl h⟩
  | cons c rest ih =>
      cases hpc : s.pc with
      | none =>
          simp only [applyCandidates, hpc]
          refine ⟨hc, ?_⟩
          intro l st h
          simp only [List.mem_append, List.mem_singleton] at h
          rcases h with h | h
          · exact Or.inl h
          · right
            injection h with _ h2
            rw [h2]
            exact hc
      | some pc =>
          cases hadd : addIceCandidate pc c with
          | error e =>
              simp only [applyCandidates, hpc, hadd]
              refine ⟨deliverAll_calm _ _ hc, ?_⟩
              intro l st h
              simp only [List.mem_append, List.mem_singleton] at h
              rcases h with h | h
              · exact Or.inl h
              · right
                injection h with _ h2
                rw [h2]
                exact hc
          | ok pc1 =>
              simp only [applyCandidates, hpc, hadd]
              have hc1 : calm (deliverAll (setPC s pc1)
                  (popBatch sched).1) :=
                deliverAll_calm _ _ hc
              obtain ⟨ih1, ih2⟩ := ih (popBatch sched).2
                (deliverAll (setPC s pc1) (popBatch sched).1)
                (tr ++ [(CallLabel.addCand, s)]) hc1
              refine ⟨ih1, ?_⟩
              intro l st h
              rcases ih2 l st h with h1 | h1
              · simp only [List.mem_append, List.mem_singleton] at h1
                rcases h1 with h1 | h1
                · exact Or.inl h1
                · right
                  injection h1 with _ h2
                  rw [h2]
                  exact hc
              · exact Or.inr h1

theorem applyCandidates_active (cs : List Candidate) (sched : List (List Ev))
    (s : HookState) (tr : Trace) (ha : s.isActivelyConnecting = true)
    (hns : noTerminalSched sched) :
    (applyCandidates cs sched s tr).state.isActivelyConnecting = true := by
  induction cs generalizing sched s tr with
  | nil => exact ha
  | cons c rest ih =>
      cases hpc : s.pc with
      | none => simp only [applyCandidates, hpc]; exact ha
      | some pc =>
          cases hadd : addIceCandidate pc c with
          | error e =>
              simp only [applyCandidates, hpc, hadd]
              exact deliverAll_active _ _ ha (noTerminalSched_pop sched hns).1
          | ok pc1 =>
              simp only [applyCandidates, hpc, hadd]
              exact ih (popBatch sched).2 _ _
                (deliverAll_active _ _ ha (noTerminalSched_pop sched hns).1)
                (noTerminalSched_pop sched hns).2

theorem applyCandidates_pc (cs : List Candidate) (sched : List (List Ev))
    (s : HookState) (tr : Trace) (pc : PeerConnection) (hpc : s.pc = some pc) :
    ∃ pc1 k, (applyCandidates cs sched s tr).state.pc = some pc1 ∧
      pc1.remoteCandidates = pc.remoteCandidates ++ cs.take k := by
  induction cs generalizing sched s tr pc with
  | nil => exact ⟨pc, 0, hpc, by simp⟩
  | cons c rest ih =>
      cases hadd : addIceCandidate pc c with
      | error e =>
          simp only [applyCandidates, hpc, hadd]
          refine ⟨pc, 0, ?_, by simp⟩
          rw [deliverAll_pc]
          exact hpc
      | ok pc1 =>
          simp only [applyCandidates, hpc, hadd]
          have hpc1 : (deliverAll (setPC s pc1)
              (popBatch sched).1).pc = some pc1 := by
            simp [deliverAll_pc]
          obtain ⟨pc2, k, h1, h2⟩ := ih (popBatch sched).2
            (deliverAll (setPC s pc1) (popBatch sched).1)
            (tr ++ [(CallLabel.addCand, s)]) pc1 hpc1
          refine ⟨pc2, k + 1, h1, ?_⟩
          rw [h2, addIceCandidate_ok pc c pc1 hadd]
          simp

theorem applyCandidates_success (cs : List Candidate) (sched : List (List Ev))
    (s : HookState) (tr : Trace) :
    (applyCandidates cs sched s tr).error = none →
    (applyCandidates cs sched s tr).state.iceCandidates
      = s.iceCandidates ++ schedCands (sched.take cs.length) ∧
    (applyCandidates cs sched s tr).sched = sched.drop cs.length := by
  induction cs generalizing sched s tr with
  | nil => intro _; simp [applyCandidates, schedCands]
  | cons c rest ih =>
      intro hok
      cases hpc : s.pc with
      | none =>
          simp only [applyCandidates, hpc] at hok
          simp at hok
      | some pc =>
          cases hadd : addIceCandidate pc c with
          | error e =>
              simp only [applyCandidates, hpc, hadd] at hok
              simp at hok
          | ok pc1 =>
              simp only [applyCandidates, hpc, hadd] at hok ⊢
              obtain ⟨ih1, ih2⟩ := ih (popBatch sched).2
                (deliverAll (setPC s pc1) (popBatch sched).1)
                (tr ++ [(CallLabel.addCand, s)]) hok
              rw [ih1, ih2, deliverAll_cands]
              constructor
              · cases sched with
                | nil => simp [popBatch, schedCands, batchCands]
                | cons b bs => simp [popBatch, schedCands]
              · cases sched with
                | nil => simp [popBatch]
                | cons b bs => simp [popBatch]


/-- C3 counterexample: a failing `handleAnswer` (here the transport refuses
the remote-description commit) leaves the actively-connecting flag SET — the
`catch` (`src/unnamed/part_000` lines 314-318) only publishes
`isConnecting := false` and re-raises; it never clears
`isActivelyConnectingRef`, contradicting the claim that the flag is cleared
on failure. -/
theorem C3_counterexample :
    (handleAnswerRun answerPayload [] mountedState).1.isErr = true ∧
    (handleAnswerRun answerPayload []
      mountedState).1.resState.isActivelyConnecting = true := by decide

/-- C3 (amended): when `handleAnswer` on an initialized handle fails during
the remote-description commit or candidate application, it clears the
visible connecting status (`isConnecting = false`) and re-raises the error,
but the internal actively-connecting flag is NOT cleared by the catch: as
long as no connected/disconnected/failed transport event arrived during the
call, the flag is still set after the failure (only such a later transport
event or `reset()` clears it).  Candidates committed before the failure
remain committed: the session's candidate list is the prior list extended by
a prefix of the payload's candidates, with no rollback. -/
theorem C3_failureClearsOnlyDisplay (p : SignalingData) (sched : List (List Ev))
    (s0 : HookState) (pc0 : PeerConnection) (hpc : s0.pc = some pc0)
    (hns : noTerminalSched sched)
    (herr : (handleAnswerRun p sched s0).1.isErr = true) :
    (handleAnswerRun p sched s0).1.resState.isConnecting = false ∧
    (handleAnswerRun p sched s0).1.resState.isActivelyConnecting = true ∧
    ∃ pc1 k, (handleAnswerRun p sched s0).1.resState.pc = some pc1 ∧
      pc1.remoteCandidates = pc0.remoteCandidates ++ p.iceCandidates.take k := by
  cases hsd : setRemoteDescription pc0 SdpKind.answer p.sdp with
  | error e =>
      simp only [handleAnswerRun, hpc, hsd]
      refine ⟨by simp [OpResult.resState], ?_, pc0, 0, ?_, by simp⟩
      · simp only [OpResult.resState, clearConnecting_isActivelyConnecting]
        exact deliverAll_active _ _ (answerPrologue_isActivelyConnecting s0)
          (noTerminalSched_pop sched hns).1
      · simp [OpResult.resState, deliverAll_pc, hpc]
  | ok pc1 =>
      simp only [handleAnswerRun, hpc, hsd] at herr ⊢
      split at herr
      · simp [OpResult.isErr] at herr
      · next e heq =>
          simp only [heq]
          have hact := applyCandidates_active p.iceCandidates (popBatch sched).2
            (deliverAll (setPC (answerPrologue s0) pc1) (popBatch sched).1)
            [(CallLabel.commitRemote, answerPrologue s0)]
            (deliverAll_active _ _ (by simp) (noTerminalSched_pop sched hns).1)
            (noTerminalSched_pop sched hns).2
          obtain ⟨pc2, k, h1, h2⟩ := applyCandidates_pc p.iceCandidates
            (popBatch sched).2
            (deliverAll (setPC (answerPrologue s0) pc1) (popBatch sched).1)
            [(CallLabel.commitRemote, answerPrologue s0)]
            pc1 (by simp [deliverAll_pc])
          refine ⟨by simp [OpResult.resState], ?_, pc2, k, ?_, ?_⟩
          · simp only [OpResult.resState, clearConnecting_isActivelyConnecting]
            exact hact
          · simp only [OpResult.resState, clearConnecting_pc]
            exact h1
          · rw [h2, (setRemoteDescription_ok pc0 SdpKind.answer p.sdp pc1 hsd).1]

/-- Witness for C3 at concrete inputs: the example answer payload against
the freshly mounted session (stable state), where the commit fails. -/
theorem C3_failureClearsOnlyDisplay_witness :
    (handleAnswerRun answerPayload [] mountedState).1.resState.isConnecting
      = false ∧
    (handleAnswerRun answerPayload []
      mountedState).1.resState.isActivelyConnecting = true ∧
    ∃ pc1 k, (handleAnswerRun answerPayload []
        mountedState).1.resState.pc = some pc1 ∧
      pc1.remoteCandidates = (freshPC 0).remoteCandidates
        ++ answerPayload.iceCandidates.take k :=
  C3_failureClearsOnlyDisplay answerPayload [] mountedState (freshPC 0)
    (by decide) (by simp [noTerminalSched]) (by decide)

/-- C4: in every run of `handleAnswer` on an initialized handle, the hook
state recorded at the moment the remote description is committed to the
transport already has `isConnecting = true` and the actively-connecting flag
set (the prologue runs synchronously before the commit call, lines 297-306);
and whenever the transport reports connected, disconnected or failed, the
state-change handler makes `isConnecting` false and clears the
actively-connecting flag (lines 99-102). -/
theorem C4_connectingSetBeforeCommit :
    (∀ p sched s0 pc0, s0.pc = some pc0 →
      ∀ st, (CallLabel.commitRemote, st) ∈ (handleAnswerRun p sched s0).2 →
        st.isConnecting = true ∧ st.isActivelyConnecting = true) ∧
    (∀ s c, isTerminalState c = true →
      (deliverEv s (Ev.connState c)).isConnecting = false ∧
      (deliverEv s (Ev.connState c)).isActivelyConnecting = false) := by
  constructor
  · intro p sched s0 pc0 hpc st hmem
    cases hsd : setRemoteDescription pc0 SdpKind.answer p.sdp with
    | error e =>
        simp only [handleAnswerRun, hpc, hsd, List.mem_singleton] at hmem
        injection hmem with _ h2
        subst h2
        exact ⟨rfl, rfl⟩
    | ok pc1 =>
        simp only [handleAnswerRun, hpc, hsd] at hmem
        split at hmem <;>
        · rcases applyCandidates_labels _ _ _ _ _ _ hmem with h1 | h1
          · simp only [List.mem_singleton] at h1
            injection h1 with _ h2
            subst h2
            exact ⟨rfl, rfl⟩
          · exact absurd h1 (by decide)
  · intro s c hterm
    simp only [deliverEv, hterm]
    split
    · next hcond =>
        rw [hcond.2] at hterm
        simp [isTerminalState] at hterm
    · exact ⟨rfl, rfl⟩

/-- Witness for C4: the concrete trace of `handleAnswer` on the mounted
session records the prologue state at the commit, and a `connected` report
clears the display and the flag. -/
theorem C4_connectingSetBeforeCommit_witness :
    ((answerPrologue mountedState).isConnecting = true ∧
     (answerPrologue mountedState).isActivelyConnecting = true) ∧
    ((deliverEv mountedState (Ev.connState ConnState.connected)).isConnecting
        = false ∧
     (deliverEv mountedState
        (Ev.connState ConnState.connected)).isActivelyConnecting = false) :=
  ⟨C4_connectingSetBeforeCommit.1 answerPayload [] mountedState (freshPC 0)
      (by decide) (answerPrologue mountedState) (by decide),
   C4_connectingSetBeforeCommit.2 mountedState ConnState.connected (by decide)⟩

/-- C5: starting from a quiet session (connecting display off,
actively-connecting flag off — true of every fresh session), reading status
right after `createOffer()` returns shows `isConnecting = false` whatever
events the transport delivered during the call; and during `createAnswer`'s
whole execution `isConnecting` never becomes true — the state at every
transport call and the final state show `isConnecting = false` even when the
transport transiently reports `connecting` (the handler suppresses it while
the actively-connecting flag is off, and neither operation sets the flag). -/
theorem C5_noConnectingDuringCreation (s0 : HookState) (hc : calm s0) :
    (∀ sched, ((createOfferRun sched s0).1.resState).isConnecting = false) ∧
    (∀ p sched,
      ((createAnswerRun p sched s0).1.resState).isConnecting = false ∧
      ∀ l st, (l, st) ∈ (createAnswerRun p sched s0).2 →
        st.isConnecting = false) := by
  have hc1 : s0.isConnecting = false := hc.1
  constructor
  · intro sched
    cases hpc : s0.pc with
    | none =>
        simp only [createOfferRun, hpc, OpResult.resState]
        exact hc1
    | some pc =>
        cases hco : transportCreateOffer pc with
        | error e =>
            simp only [createOfferRun, hpc, hco, OpResult.resState]
            exact (deliverAll_calm _ _ (calm_offerStart s0 hc)).1
        | ok offerSdp =>
            have hpc2 : (deliverAll (offerStart s0) (popBatch sched).1).pc
                = some pc := by simp [deliverAll_pc, hpc]
            cases hsl : setLocalDescription pc SdpKind.offer offerSdp with
            | error e =>
                simp only [createOfferRun, hpc, hco, hpc2, hsl, OpResult.resState]
                exact (deliverAll_calm _ _ (deliverAll_calm _ _
                  (calm_offerStart s0 hc))).1
            | ok pc3 =>
                simp only [createOfferRun, hpc, hco, hpc2, hsl, OpResult.resState]
                exact (deliverAll_calm _ _ (deliverAll_calm _ _ (calm_setPC _ pc3
                  (deliverAll_calm _ _ (calm_offerStart s0 hc))))).1
  · intro p sched
    cases hpc : s0.pc with
    | none =>
        simp only [createAnswerRun, hpc, OpResult.resState]
        refine ⟨hc1, ?_⟩
        intro l st h
        simp at h
    | some pc =>
        cases hsr : setRemoteDescription pc SdpKind.offer p.sdp with
        | error e =>
            simp only [createAnswerRun, hpc, hsr, OpResult.resState]
            refine ⟨?_, ?_⟩
            · simp only [clearCreating_isConnecting]
              exact (deliverAll_calm _ _ (calm_answerStart s0 hc)).1
            · intro l st h
              simp only [List.mem_singleton] at h
              injection h with _ h2
              subst h2
              exact hc1
        | ok pc1 =>
            simp only [createAnswerRun, hpc, hsr]
            set r := applyCandidates p.iceCandidates (popBatch sched).2
              (deliverAll (setPC (answerStart s0) pc1) (popBatch sched).1)
              [(CallLabel.commitRemote, answerStart s0)] with hr
            have hcalm2 : calm (deliverAll (setPC (answerStart s0) pc1)
                (popBatch sched).1) :=
              deliverAll_calm _ _ (calm_setPC _ pc1 (calm_answerStart s0 hc))
            have hall := applyCandidates_calm p.iceCandidates (popBatch sched).2
              (deliverAll (setPC (answerStart s0) pc1) (popBatch sched).1)
              [(CallLabel.commitRemote, answerStart s0)] hcalm2
            rw [← hr] at hall
            obtain ⟨hrc, hrt⟩ := hall
            have htr : ∀ l st, (l, st) ∈ r.trace → st.isConnecting = false := by
              intro l st h
              rcases hrt l st h with h1 | h1
              · simp only [List.mem_singleton] at h1
                injection h1 with _ h2
                subst h2
                exact hc1
              · exact h1.1
            have hpcall := applyCandidates_pc p.iceCandidates (popBatch sched).2
              (deliverAll (setPC (answerStart s0) pc1) (popBatch sched).1)
              [(CallLabel.commitRemote, answerStart s0)] pc1
              (by simp [deliverAll_pc])
            rw [← hr] at hpcall
            obtain ⟨pcr, k, hpcr, _⟩ := hpcall
            cases herr : r.error with
            | some e =>
                simp only [herr, OpResult.resState]
                refine ⟨?_, ?_⟩
                · simp only [clearCreating_isConnecting]
                  exact hrc.1
                · intro l st h
                  exact htr l st h
            | none =>
                simp only [herr, hpcr]
                cases hta : transportCreateAnswer pcr with
                | error e =>
                    simp only [hta, OpResult.resState]
                    refine ⟨?_, ?_⟩
                    · simp only [clearCreating_isConnecting]
                      exact (deliverAll_calm _ _ hrc).1
                    · intro l st h
                      simp only [List.mem_append, List.mem_singleton] at h
                      rcases h with h | h
                      · exact htr l st h
                      · injection h with _ h2
                        subst h2
                        exact hrc.1
                | ok ansSdp =>
                    have hpc4 : (deliverAll r.state (popBatch r.sched).1).pc
                        = some pcr := by simp [deliverAll_pc, hpcr]
                    cases hsl2 : setLocalDescription pcr SdpKind.answer ansSdp with
                    | error e =>
                        simp only [hta, hpc4, hsl2, OpResult.resState]
                        refine ⟨?_, ?_⟩
                        · simp only [clearCreating_isConnecting]
                          exact (deliverAll_calm _ _
                            (deliverAll_calm _ _ hrc)).1
                        · intro l st h
                          simp only [List.mem_append, List.mem_singleton] at h
                          rcases h with (h | h) | h
                          · exact htr l st h
                          · injection h with _ h2
                            subst h2
                            exact hrc.1
                          · injection h with _ h2
                            subst h2
                            exact (deliverAll_calm _ _ hrc).1
                    | ok pc5 =>
                        simp only [hta, hpc4, hsl2, OpResult.resState]
                        refine ⟨?_, ?_⟩
                        · simp only [clearCreating_isConnecting]
                          exact (deliverAll_calm _ _ (deliverAll_calm _ _
                            (calm_setPC _ pc5 (deliverAll_calm _ _ hrc)))).1
                        · intro l st h
                          simp only [List.mem_append, List.mem_singleton] at h
                          rcases h with (h | h) | h
                          · exact htr l st h
                          · injection h with _ h2
                            subst h2
                            exact hrc.1
                          · injection h with _ h2
                            subst h2
                            exact (deliverAll_calm _ _ hrc).1

/-- Witness for C5 at concrete inputs: the mounted session is quiet; an
offer round and an answer round during which the transport reports
`connecting` still never show `isConnecting = true`. -/
theorem C5_noConnectingDuringCreation_witness :
    (((createOfferRun [[Ev.connState ConnState.connecting]]
        mountedState).1.resState).isConnecting = false) ∧
    (((createAnswerRun answerPayload [[Ev.connState ConnState.connecting]]
        mountedState).1.resState).isConnecting = false) :=
  ⟨(C5_noConnectingDuringCreation mountedState (by constructor <;> decide)).1
      [[Ev.connState ConnState.connecting]],
   ((C5_noConnectingDuringCreation mountedState (by constructor <;> decide)).2
      answerPayload [[Ev.connState ConnState.connecting]]).1⟩

theorem schedCands_append (a b : List (List Ev)) :
    schedCands (a ++ b) = schedCands a ++ schedCands b := by
  simp [schedCands]

theorem schedCands_take_succ (sched : List (List Ev)) (n : Nat) :
    schedCands (sched.take (n + 1))
      = batchCands (popBatch sched).1
        ++ schedCands ((popBatch sched).2.take n) := by
  cases sched with
  | nil => simp [popBatch, schedCands, batchCands]
  | cons b bs => simp [popBatch, schedCands]

theorem schedCands_take_add (l : List (List Ev)) (n m : Nat) :
    schedCands (l.take (n + m))
      = schedCands (l.take n) ++ schedCands ((l.drop n).take m) := by
  rw [List.take_add, schedCands_append]

theorem schedCands_take_three (sched : List (List Ev)) :
    schedCands (sched.take 3)
      = batchCands (popBatch sched).1
        ++ (batchCands (popBatch (popBatch sched).2).1
          ++ batchCands (popBatch (popBatch (popBatch sched).2).2).1) := by
  cases sched with
  | nil => simp [popBatch, schedCands, batchCands]
  | cons b1 s1 =>
      cases s1 with
      | nil => simp [popBatch, schedCands, batchCands]
      | cons b2 s2 =>
          cases s2 with
          | nil => simp [popBatch, schedCands, batchCands]
          | cons b3 s3 => simp [popBatch, schedCands]

theorem applyCandidates_trace_prefix (cs : List Candidate)
    (sched : List (List Ev)) (s : HookState) (tr : Trace) :
    ∃ t2, (applyCandidates cs sched s tr).trace = tr ++ t2 := by
  induction cs generalizing sched s tr with
  | nil => exact ⟨[], by simp [applyCandidates]⟩
  | cons c rest ih =>
      cases hpc : s.pc with
      | none =>
          exact ⟨[(CallLabel.addCand, s)], by simp [applyCandidates, hpc]⟩
      | some pc =>
          cases hadd : addIceCandidate pc c with
          | error e =>
              exact ⟨[(CallLabel.addCand, s)],
                by simp [applyCandidates, hpc, hadd]⟩
          | ok pc1 =>
              obtain ⟨t2, ht⟩ := ih (popBatch sched).2
                (deliverAll (setPC s pc1) (popBatch sched).1)
                (tr ++ [(CallLabel.addCand, s)])
              exact ⟨[(CallLabel.addCand, s)] ++ t2, by
                simp [applyCandidates, hpc, hadd, ht]⟩

/-- C6 counterexample: the candidate handler appends unconditionally — after
the initiator's negotiation round has fully completed (answer applied, no
negotiation step running), a late-trickling candidate event is still
appended to the accumulator, so candidates are NOT appended only while a
negotiation round is in progress. -/
theorem C6_counterexample :
    negotiatedState.iceCandidates = [] ∧
    (deliverEv negotiatedState (Ev.iceCand exCandidate)).iceCandidates
      = [exCandidate] := by decide

/-- C6 (amended): the candidate handler appends every delivered candidate
whether or not a negotiation round is in progress; but each negotiation step
clears the accumulator synchronously before its first transport call (the
state recorded at the first transport call of `createOffer` and of
`createAnswer` always has an empty accumulator), and a successful step's
payload contains exactly the candidates delivered at that step's suspension
points, in delivery order — so no candidate gathered in a previous round
ever appears in a later round's payload. -/
theorem C6_accumulatorFreshPerRound (s0 : HookState) (pc0 : PeerConnection)
    (sched : List (List Ev)) (p : SignalingData) (hpc : s0.pc = some pc0) :
    ((createOfferRun sched s0).2.head?.map (fun en => en.2.iceCandidates)
       = some []) ∧
    ((createAnswerRun p sched s0).2.head?.map (fun en => en.2.iceCandidates)
       = some []) ∧
    (∀ s v, (createOfferRun sched s0).1 = OpResult.ok s v →
        v.iceCandidates = schedCands (sched.take 3)) ∧
    (∀ s v, (createAnswerRun p sched s0).1 = OpResult.ok s v →
        v.iceCandidates
          = schedCands (sched.take (p.iceCandidates.length + 4))) := by
  refine ⟨?_, ?_, ?_, ?_⟩
  · cases hco : transportCreateOffer pc0 with
    | error e => simp [createOfferRun, hpc, hco]
    | ok offerSdp =>
        have hpc2 : (deliverAll (offerStart s0) (popBatch sched).1).pc
            = some pc0 := by simp [deliverAll_pc, hpc]
        cases hsl : setLocalDescription pc0 SdpKind.offer offerSdp with
        | error e => simp [createOfferRun, hpc, hco, hpc2, hsl]
        | ok pc3 => simp [createOfferRun, hpc, hco, hpc2, hsl]
  · cases hsr : setRemoteDescription pc0 SdpKind.offer p.sdp with
    | error e => simp [createAnswerRun, hpc, hsr]
    | ok pc1 =>
        simp only [createAnswerRun, hpc, hsr]
        set r := applyCandidates p.iceCandidates (popBatch sched).2
          (deliverAll (setPC (answerStart s0) pc1) (popBatch sched).1)
          [(CallLabel.commitRemote, answerStart s0)] with hr
        obtain ⟨t2, ht⟩ := applyCandidates_trace_prefix p.iceCandidates
          (popBatch sched).2
          (deliverAll (setPC (answerStart s0) pc1) (popBatch sched).1)
          [(CallLabel.commitRemote, answerStart s0)]
        rw [← hr] at ht
        have hpcall := applyCandidates_pc p.iceCandidates (popBatch sched).2
          (deliverAll (setPC (answerStart s0) pc1) (popBatch sched).1)
          [(CallLabel.commitRemote, answerStart s0)] pc1
          (by simp [deliverAll_pc])
        rw [← hr] at hpcall
        obtain ⟨pcr, k, hpcr, _⟩ := hpcall
        cases herr : r.error with
        | some e => simp [herr, ht]
        | none =>
            simp only [herr, hpcr]
            cases hta : transportCreateAnswer pcr with
            | error e => simp [hta, ht]
            | ok ansSdp =>
                have hpc4 : (deliverAll r.state (popBatch r.sched).1).pc
                    = some pcr := by simp [deliverAll_pc, hpcr]
                cases hsl2 : setLocalDescription pcr SdpKind.answer ansSdp with
                | error e => simp [hta, hpc4, hsl2, ht]
                | ok pc5 => simp [hta, hpc4, hsl2, ht]
  · intro s v h
    cases hco : transportCreateOffer pc0 with
    | error e =>
        simp only [createOfferRun, hpc, hco] at h
        simp at h
    | ok offerSdp =>
        have hpc2 : (deliverAll (offerStart s0) (popBatch sched).1).pc
            = some pc0 := by simp [deliverAll_pc, hpc]
        cases hsl : setLocalDescription pc0 SdpKind.offer offerSdp with
        | error e =>
            simp only [createOfferRun, hpc, hco, hpc2, hsl] at h
            simp at h
        | ok pc3 =>
            simp only [createOfferRun, hpc, hco, hpc2, hsl] at h
            injection h with h1 h2
            subst h2
            simp [deliverAll_cands, schedCands_take_three, List.append_assoc]
  · intro s v h
    cases hsr : setRemoteDescription pc0 SdpKind.offer p.sdp with
    | error e =>
        simp only [createAnswerRun, hpc, hsr] at h
        simp at h
    | ok pc1 =>
        simp only [createAnswerRun, hpc, hsr] at h
        set r := applyCandidates p.iceCandidates (popBatch sched).2
          (deliverAll (setPC (answerStart s0) pc1) (popBatch sched).1)
          [(CallLabel.commitRemote, answerStart s0)] with hr
        have hpcall := applyCandidates_pc p.iceCandidates (popBatch sched).2
          (deliverAll (setPC (answerStart s0) pc1) (popBatch sched).1)
          [(CallLabel.commitRemote, answerStart s0)] pc1
          (by simp [deliverAll_pc])
        rw [← hr] at hpcall
        obtain ⟨pcr, k, hpcr, _⟩ := hpcall
        cases herr : r.error with
        | some e =>
            simp only [herr] at h
            simp at h
        | none =>
            simp only [herr, hpcr] at h
            cases hta : transportCreateAnswer pcr with
            | error e =>
                simp only [hta] at h
                simp at h
            | ok ansSdp =>
                have hpc4 : (deliverAll r.state (popBatch r.sched).1).pc
                    = some pcr := by simp [deliverAll_pc, hpcr]
                simp only [hta, hpc4] at h
                cases hsl2 : setLocalDescription pcr SdpKind.answer ansSdp with
                | error e =>
                    simp only [hsl2] at h
                    simp at h
                | ok pc5 =>
                    simp only [hsl2] at h
                    have hsucc := applyCandidates_success p.iceCandidates
                      (popBatch sched).2
                      (deliverAll (setPC (answerStart s0) pc1) (popBatch sched).1)
                      [(CallLabel.commitRemote, answerStart s0)]
                    rw [← hr] at hsucc
                    obtain ⟨hsucc1, hsucc2⟩ := hsucc herr
                    injection h with h1 h2
                    subst h2
                    rw [show p.iceCandidates.length + 4
                          = (p.iceCandidates.length + 3) + 1 from rfl,
                        schedCands_take_succ,
                        schedCands_take_add ((popBatch sched).2)
                          p.iceCandidates.length 3,
                        ← hsucc2, schedCands_take_three]
                    simp [deliverAll_cands, hsucc1, List.append_assoc]

/-- Witness for C6 at concrete inputs: one candidate delivered during the
round appears in the payload; the first transport call sees an empty
accumulator. -/
theorem C6_accumulatorFreshPerRound_witness :
    (((createOfferRun [[Ev.iceCand exCandidate]] mountedState).2.head?.map
        (fun en => en.2.iceCandidates)) = some []) ∧
    offerRoundPayload.iceCandidates
      = schedCands ([[Ev.iceCand exCandidate]].take 3) :=
  ⟨(C6_accumulatorFreshPerRound mountedState (freshPC 0)
      [[Ev.iceCand exCandidate]] offerPayload (by decide)).1,
   (C6_accumulatorFreshPerRound mountedState (freshPC 0)
      [[Ev.iceCand exCandidate]] offerPayload (by decide)).2.2.1
     offerRoundState offerRoundPayload (by decide)⟩
